import Mathlib

/-!
Verification of the distributed-lock core of the repository
(`kit/distributedlock` and its SQL implementation `kit/distributedlock/sql`).

The Go code is shallowly embedded:

* `Err` models Go `error` values as they are built by this code base:
  the sentinel `dlock.ErrAcquiredLock` (a `dlock.Error` string constant),
  arbitrary store errors (`Err.base`), and the wrapping performed by
  `kit/errors.Wrap`, which is `fmt.Errorf("%s: %w", message, err)`.
  A Go `error` variable (which may be `nil`) is an `Option Err`.
* The SQL `Lock` handle is the structure `Lock` below: the derived key
  (`value`) and the optional live transaction (`tx`, `nil` when unlocked).
  The per-handle mutex only serializes calls through the handle and has no
  effect on the sequential semantics embedded here; the exported `Lock`,
  `IsLock` and `Release` methods are the mutex-acquiring wrappers around
  `lock`/`isLock`/`release` and are embedded as the same functions.
* Calls into the backing store (`db.BeginTxx`, `tx.GetContext` on
  `pg_try_advisory_xact_lock`, the `SELECT TRUE` liveness probe, and
  `tx.Rollback`) are external I/O; each embedded method takes the outcome
  of each potential store call as an explicit oracle argument and the
  definitions reproduce the Go control flow over those outcomes.
* A concrete error-free model of the backing store (`Store`) instantiates
  those oracles for the mutual-exclusion claims: sessions, and a table of
  advisory-lock holders with PostgreSQL try-acquire semantics.
-/

/-- Go session/transaction handles (`*sqlx.Tx`) are identified by the id of
the underlying store session. -/
abbrev Session := Nat

/-- Go `error` values as constructed by the distributed-lock code:
`base` is an error produced by a collaborator (store/driver),
`errAcquiredLock` is the sentinel `dlock.ErrAcquiredLock =
Error("failed to acquired lock")`, and `wrap msg inner` is
`kit/errors.Wrap(inner, msg) = fmt.Errorf("%s: %w", msg, inner)`. -/
inductive Err where
  | base (msg : String)
  | errAcquiredLock
  | wrap (msg : String) (inner : Err)
deriving DecidableEq, Repr

namespace Err

/-- The Go `Error()` string of an error value. `dlock.Error.Error` returns
the constant string; `fmt.Errorf("%s: %w", msg, err)` renders as
`msg + ": " + err.Error()`. -/
def message : Err → String
  | .base s => s
  | .errAcquiredLock => "failed to acquired lock"
  | .wrap msg inner => msg ++ ": " ++ inner.message

/-- Go `errors.Is(e, target)`: `e` matches `target` if it equals it or some
error in its unwrap chain does. Both sentinels here are comparable values. -/
def is : Err → Err → Bool
  | .wrap msg inner, target => (Err.wrap msg inner == target) || inner.is target
  | e, target => e == target

/-- Whether the error value is a `kit/errors.Wrap` of another error. -/
def isWrapped : Err → Bool
  | .wrap _ _ => true
  | _ => false

end Err

/-- `kit/errors.Wrap(err, message)`: returns `nil` when `err` is `nil`,
otherwise annotates `err` with `message`. -/
def Wrap (err : Option Err) (message : String) : Option Err :=
  match err with
  | none => none
  | some e => some (Err.wrap message e)

/-- The SQL lock handle (`dlocksql.Lock`): `value` is the derived 64-bit key,
`tx` is the current transaction holding the lock (`none` if not locked).
The `db` pool and the mutex carry no sequential state and are omitted. -/
structure Lock where
  value : Int
  tx : Option Session
deriving DecidableEq, Repr

namespace Lock

/-- `Lock.release` (dlock.go:116-123): if a transaction is held, roll it back,
clear `tx` unconditionally, and return the rollback error; otherwise no-op.
`rollbackRes` is the oracle outcome of `l.tx.Rollback()` were it called. -/
def release (l : Lock) (rollbackRes : Option Err) : Option Err × Lock :=
  match l.tx with
  | some _ => (rollbackRes, { l with tx := none })
  | none => (none, l)

/-- `Lock.isLock` (dlock.go:126-141): with no transaction, fail at once with
`errors.Wrap(dlock.ErrAcquiredLock, "does not lock the ressource")`; with a
transaction, run the `SELECT TRUE` liveness probe (`probeRes` oracle); on
probe failure call `release` (whose rollback outcome is `probeRollbackRes`)
and return `ErrAcquiredLock`, wrapped with the release error when the
release itself fails. -/
def isLock (l : Lock) (probeRes : Option Err) (probeRollbackRes : Option Err) :
    Option Err × Lock :=
  match l.tx with
  | none => (some (Err.wrap "does not lock the ressource" Err.errAcquiredLock), l)
  | some _ =>
    match probeRes with
    | none => (none, l)
    | some _ =>
      let (releaseErr, l') := l.release probeRollbackRes
      match releaseErr with
      | some re => (some (Err.wrap re.message Err.errAcquiredLock), l')
      | none => (some Err.errAcquiredLock, l')

/-- `Lock.Lock` (dlock.go:84-113). With `tx == nil`: open a transaction
(`beginRes` is the `db.BeginTxx` outcome), run
`SELECT pg_try_advisory_xact_lock($1)` (`acquireRes` is the `GetContext`
outcome: an error or the `succeed` boolean); on query error roll back
(`rollbackRes`) and surface `errors.Wrap`; on `succeed == false` roll back
and return as the Go code does — note that in this branch the Go variable
`err` is `nil`, so `errors.Wrap(err, rollbackErr.Error())` is `Wrap none _`.
On success store the transaction. With `tx != nil`: delegate to `isLock`
(`probeRes`/`probeRollbackRes` oracles). (Named `lock` here because the Go
method `Lock.Lock` would shadow the type name.) -/
def lock (l : Lock) (beginRes : Except Err Session) (acquireRes : Except Err Bool)
    (rollbackRes : Option Err) (probeRes : Option Err) (probeRollbackRes : Option Err) :
    Option Err × Lock :=
  match l.tx with
  | none =>
    match beginRes with
    | .error e => (some e, l)
    | .ok tx =>
      match acquireRes with
      | .error err =>
        match rollbackRes with
        | some rollbackErr => (Wrap (some err) rollbackErr.message, l)
        | none => (Wrap (some err) "failed to get lock status", l)
      | .ok succeed =>
        if !succeed then
          match rollbackRes with
          | some rollbackErr => (Wrap none rollbackErr.message, l)
          | none => (some Err.errAcquiredLock, l)
        else
          (none, { l with tx := some tx })
  | some _ => l.isLock probeRes probeRollbackRes

/-- `Lock.IsLock` (dlock.go:72-76): acquire the handle mutex and delegate;
sequentially identical to `isLock`. -/
def IsLock (l : Lock) (probeRes : Option Err) (probeRollbackRes : Option Err) :
    Option Err × Lock :=
  l.isLock probeRes probeRollbackRes

/-- `Lock.Release` (dlock.go:78-82): acquire the handle mutex and delegate;
sequentially identical to `release`. -/
def Release (l : Lock) (rollbackRes : Option Err) : Option Err × Lock :=
  l.release rollbackRes

end Lock

/-! ### Key derivation (dlock.go:44-55) -/

/-- One step of FNV-1a: xor in the byte, multiply by the 64-bit FNV prime,
truncate to 64 bits (Go `uint64` arithmetic). -/
def fnv1aStep (h b : Nat) : Nat :=
  ((h ^^^ b) * 1099511628211) % 2 ^ 64

/-- Go `hash/fnv.New64a` followed by `Write(bytes)` then `Sum64`: fold
`fnv1aStep` over the bytes starting from the 64-bit FNV offset basis.
The resource-name string is represented by its UTF-8 byte sequence. -/
def fnv1a64 (bytes : List Nat) : Nat :=
  bytes.foldl fnv1aStep 14695981039346656037

/-- Go `int64(u)` for a `uint64` value: reinterpret the two's-complement
bit pattern. -/
def toInt64 (u : Nat) : Int :=
  if u < 2 ^ 63 then (u : Int) else (u : Int) - 2 ^ 64

/-- `hash` (dlock.go:44-55): FNV-1a of the name's bytes, reinterpreted as
`int64`. The only error path is `Write` failing, and `fnv`'s `Write` never
returns an error, so the embedding always returns `.ok`. (Namespaced after
the Go package to avoid Mathlib's `Hashable.hash`.) -/
def dlocksql.hash (inp : List Nat) : Except Err Int :=
  .ok (toInt64 (fnv1a64 inp))

/-- `DistributedLock.New` (dlock.go:36-42): derive the key once via `hash`
and return a fresh handle with no transaction. The handle's `db` pool and
fresh mutex carry no sequential state and are omitted. -/
def DistributedLockNew (value : List Nat) : Except Err Lock :=
  match dlocksql.hash value with
  | .error e => .error e
  | .ok hashedValue => .ok { value := hashedValue, tx := none }

/-! ### Error-free model of the backing store

The spec's backing-store collaborator contract (spec §6): transactional
sessions, and per-key advisory locks with non-blocking try-acquire whose
lifetime is the owning session's lifetime (`pg_try_advisory_xact_lock`).
This model is the store with no I/O failures; the oracle arguments of the
`Lock` methods are instantiated from it. -/

/-- Backing-store state: a source of fresh session ids, the set of open
sessions, and the advisory-lock table mapping keys to the session holding
them. -/
structure Store where
  nextSession : Nat
  openSessions : List Nat
  holders : List (Int × Nat)
deriving DecidableEq, Repr

namespace Store

/-- `db.BeginTxx`: open a fresh session. -/
def beginTxx (s : Store) : Nat × Store :=
  (s.nextSession,
   { s with nextSession := s.nextSession + 1,
            openSessions := s.nextSession :: s.openSessions })

/-- The session currently holding the advisory lock on `key`, if any. -/
def heldKey (s : Store) (key : Int) : Option Nat :=
  (s.holders.find? (fun p => p.1 == key)).map (·.2)

/-- `pg_try_advisory_xact_lock(key)` issued from session `sess`:
succeeds if the key is free (recording `sess` as holder) or already held
by `sess` itself; fails without blocking if another session holds it. -/
def tryAcquire (s : Store) (sess : Nat) (key : Int) : Bool × Store :=
  match s.heldKey key with
  | none => (true, { s with holders := (key, sess) :: s.holders })
  | some holder => (holder == sess, s)

/-- `tx.Rollback` / session teardown: the session is closed and every
advisory lock it held is released (session-scoped locks, spec §6/§GLOSSARY). -/
def rollback (s : Store) (sess : Nat) : Store :=
  { s with openSessions := s.openSessions.filter (fun x => x ≠ sess),
           holders := s.holders.filter (fun p => p.2 ≠ sess) }

/-- The `SELECT TRUE` liveness probe: succeeds iff the session is open. -/
def probe (s : Store) (sess : Nat) : Bool :=
  s.openSessions.contains sess

/-- Store well-formedness: open sessions were allocated in the past; lock
holders are open sessions; and a key has at most one holding session (the
store resolves concurrent try-acquires to exactly one winner). -/
def WF (s : Store) : Prop :=
  (∀ sess ∈ s.openSessions, sess < s.nextSession) ∧
  (∀ p ∈ s.holders, p.2 ∈ s.openSessions) ∧
  (∀ p ∈ s.holders, ∀ q ∈ s.holders, p.1 = q.1 → p.2 = q.2)

instance (s : Store) : Decidable s.WF := by
  unfold WF; infer_instance

end Store

/-- `Lock.Lock` run against the error-free `Store`: the control flow of
dlock.go:84-113 with the store calls performed on `s` (all of them
succeeding at the I/O level, so the Go error branches are dead). With
`tx == nil`: `BeginTxx`, try-acquire; on `succeed` keep the session, else
roll the fresh session back and return `dlock.ErrAcquiredLock`. With
`tx != nil`: `isLock` — the probe succeeds iff the session is still open;
on probe failure the session is rolled back and `tx` cleared. -/
def Lock.lockS (l : Lock) (s : Store) : Option Err × Lock × Store :=
  match l.tx with
  | none =>
    let sess := s.beginTxx.1
    let s1 := s.beginTxx.2
    let succeed := (s1.tryAcquire sess l.value).1
    let s2 := (s1.tryAcquire sess l.value).2
    if succeed then
      (none, { l with tx := some sess }, s2)
    else
      (some Err.errAcquiredLock, l, s2.rollback sess)
  | some sess =>
    if s.probe sess then
      (none, l, s)
    else
      (some Err.errAcquiredLock, { l with tx := none }, s.rollback sess)

/-- `Lock.Release` run against the error-free `Store`: roll back the held
session (releasing its advisory locks) and clear `tx`; no-op when unlocked. -/
def Lock.releaseS (l : Lock) (s : Store) : Option Err × Lock × Store :=
  match l.tx with
  | some sess => (none, { l with tx := none }, s.rollback sess)
  | none => (none, l, s)

/-! ### `WaitForLock` (dlock.go interface file, lines 215-230)

The Go loop selects between `ctx.Done()` and the 1-second ticker created by
`time.NewTicker` (whose first tick fires only after one full interval).
A run is determined by the number of ticker ticks delivered before the
context terminates (`ticksBeforeDone`) and by the result each successive
`l.Lock(ctx)` call would return (`lockRes i` for the `i`-th call, 0-based).
`waitForLock` returns the Go result together with the number of `Lock`
calls the loop actually made. -/

def waitForLock (lockRes : Nat → Option Err) (ctxErr : Err) :
    (ticksBeforeDone : Nat) → Option Err × Nat
  | 0 => (some (Err.wrap "timeout to acquired lock" ctxErr), 0)
  | n + 1 =>
    match lockRes 0 with
    | none => (none, 1)
    | some _ =>
      ((waitForLock (fun i => lockRes (i + 1)) ctxErr n).1,
       (waitForLock (fun i => lockRes (i + 1)) ctxErr n).2 + 1)

/-! ### `ContextLock` (dlock.go interface file, lines 185-210)

`ContextLock` first calls `l.Lock(ctx)` synchronously; on error it returns
`(nil, nil, err)` and starts nothing. On success it derives a cancellable
child context and starts the lease-monitor goroutine, which loops selecting
between `newCtx.Done()` (return) and the ticker (probe `l.IsLock`; on
failure call `cancel()` and return). A monitor run is determined by the
sequence of events the select observes: `done` (the derived context was
canceled — by the returned cancel, the parent context, or the monitor's own
earlier `cancel()`) or `tick p rb` (a ticker tick, with the store oracles
for the ensuing `IsLock` call). -/

/-- One event observed by the lease monitor's `select`. -/
inductive MEvent where
  | done
  | tick (probeRes : Option Err) (probeRollbackRes : Option Err)
deriving DecidableEq, Repr

/-- How (whether) the monitor goroutine exited. -/
inductive MExit where
  | ctxDone
  | probeFail
  | running
deriving DecidableEq, Repr

/-- A trace event whose probe (if it is a tick) succeeds. -/
def tickProbeOk : MEvent → Prop
  | MEvent.done => True
  | MEvent.tick pp _ => pp = none

instance : DecidablePred tickProbeOk := fun ev => by
  unfold tickProbeOk; rcases ev <;> infer_instance

/-- The lease-monitor goroutine of `ContextLock` over a finite event trace:
returns the final handle state, the exit mode (`ctxDone` = exited on
`newCtx.Done()` without touching anything; `probeFail` = a probe failed, it
called `cancel()` and exited; `running` = trace exhausted, still looping),
and the number of `IsLock` probes it made. -/
def monitorRun (l : Lock) : List MEvent → Lock × MExit × Nat
  | [] => (l, MExit.running, 0)
  | MEvent.done :: _ => (l, MExit.ctxDone, 0)
  | MEvent.tick p rb :: rest =>
    match l.IsLock p rb with
    | (some _, l') => (l', MExit.probeFail, 1)
    | (none, l') =>
      ((monitorRun l' rest).1, (monitorRun l' rest).2.1, (monitorRun l' rest).2.2 + 1)

/-- `ContextLock`: the synchronous `l.Lock(ctx)` call is given by its store
oracles; on failure return the error with no derived context, no cancel and
no background task (`none`); on success return the monitor run over the
event trace (`some`), standing for the derived context/cancel pair plus the
spawned goroutine. -/
def ContextLock (l : Lock) (beginRes : Except Err Session) (acquireRes : Except Err Bool)
    (rollbackRes : Option Err) (probeRes : Option Err) (probeRollbackRes : Option Err)
    (events : List MEvent) : Option (Lock × MExit × Nat) × Option Err :=
  match l.lock beginRes acquireRes rollbackRes probeRes probeRollbackRes with
  | (some e, _) => (none, some e)
  | (none, l') => (some (monitorRun l' events), none)

/-! ## Theorems -/

/-- C2: the claim is right and the code is wrong. When `Lock.Lock` on an
Unlocked handle sees the try-acquire report `succeed = false` AND the
rollback of the just-opened transaction itself errors, the Go code returns
`errors.Wrap(err, rollbackErr.Error())` where `err` is `nil` (the query
succeeded), and `errors.Wrap(nil, _)` is `nil` — so the call returns
success while the handle stays Unlocked and no lock is held, contradicting
the spec ("close the just-opened session and fail with `ErrAcquiredLock`")
and the interface contract that a nil return means the value is locked.
When the rollback succeeds the code does return `ErrAcquiredLock` with the
handle Unlocked, as claimed. -/
theorem lock_contended_rollback_error_returns_nil :
    (Lock.lock { value := 42, tx := none } (Except.ok 0) (Except.ok false)
        (some (Err.base "rollback failed")) none none)
      = (none, { value := 42, tx := none }) ∧
    (Lock.lock { value := 42, tx := none } (Except.ok 0) (Except.ok false)
        none none none)
      = (some Err.errAcquiredLock, { value := 42, tx := none }) := by
  constructor <;> rfl

/-- C3: `Release` is idempotent and never leaves the handle ambiguous:
on an Unlocked handle (`tx = none`) it is a no-op returning `nil`; on a
Locked handle it clears `tx` unconditionally and propagates the rollback
error (if any); consequently a second consecutive `Release` always returns
`nil` and changes nothing. -/
theorem release_idempotent (l : Lock) (rb rb' : Option Err) :
    (l.tx = none → l.Release rb = (none, l)) ∧
    (∀ sess, l.tx = some sess → l.Release rb = (rb, { l with tx := none })) ∧
    ((l.Release rb).2.Release rb' = (none, (l.Release rb).2)) := by
  unfold Lock.Release Lock.release
  rcases h : l.tx with _ | sess <;> simp [h]

/-- C3 witness. -/
theorem release_idempotent_witness :
    Lock.Release { value := 7, tx := some 3 } (some (Err.base "teardown failed"))
      = (some (Err.base "teardown failed"), { value := 7, tx := none }) ∧
    Lock.Release { value := 7, tx := none } (some (Err.base "unused")) = (none, { value := 7, tx := none }) :=
  ⟨(release_idempotent { value := 7, tx := some 3 } (some (Err.base "teardown failed")) none).2.1 3 rfl,
   (release_idempotent { value := 7, tx := none } (some (Err.base "unused")) none).1 rfl⟩

/-- C4: the `IsLock` contract. It returns `nil` exactly when a live session
exists (`tx ≠ none`) and the liveness probe succeeds; on any probe failure
the session is torn down and the handle is Unlocked (`tx = none`) in the
returned state, and the error returned matches `ErrAcquiredLock`
(`errors.Is`); with no session it fails without consulting the store
oracles, returning `ErrAcquiredLock` wrapped with the message
"does not lock the ressource" and leaving the handle untouched. -/
theorem isLock_contract (l : Lock) (p rb : Option Err) :
    ((l.IsLock p rb).1 = none ↔ (l.tx ≠ none ∧ p = none)) ∧
    (l.tx ≠ none → p ≠ none →
      (l.IsLock p rb).2.tx = none ∧
      ∃ e, (l.IsLock p rb).1 = some e ∧ e.is Err.errAcquiredLock = true) ∧
    (l.tx = none → ∀ p' rb',
      l.IsLock p rb = l.IsLock p' rb' ∧
      (l.IsLock p rb).1
        = some (Err.wrap "does not lock the ressource" Err.errAcquiredLock) ∧
      (l.IsLock p rb).2 = l) := by
  unfold Lock.IsLock Lock.isLock Lock.release
  rcases h : l.tx with _ | sess
  · simp [h]
  · rcases hp : p with _ | e
    · simp [h, hp]
    · rcases hrb : rb with _ | re <;>
        simp [h, hp, hrb, Err.is]

/-- C4 witness. -/
theorem isLock_contract_witness :
    (Lock.IsLock { value := 5, tx := some 2 } (some (Err.base "conn reset")) none).2.tx = none ∧
    (Lock.IsLock { value := 5, tx := none } none none).1
      = some (Err.wrap "does not lock the ressource" Err.errAcquiredLock) :=
  ⟨((isLock_contract { value := 5, tx := some 2 } (some (Err.base "conn reset")) none).2.1
      (by simp) (by simp)).1,
   (((isLock_contract { value := 5, tx := none } none none).2.2 rfl none none).2).1⟩

/-- C5 counterexample: the claim says a re-entrant `Lock.Lock` whose
liveness check fails returns "`ErrAcquiredLock` wrapped with store
context". In the code's common loss path — probe fails, the teardown
rollback succeeds — the returned error is the *bare* sentinel
`dlock.ErrAcquiredLock`, not a wrap of it: here concretely, a Locked handle
whose probe errors with "connection reset" and whose rollback returns nil
yields exactly `some Err.errAcquiredLock`, which is not a wrapped error. -/
theorem lock_reentrant_error_not_wrapped :
    (Lock.lock { value := 9, tx := some 0 } (Except.ok 99) (Except.ok true) none
        (some (Err.base "connection reset")) none)
      = (some Err.errAcquiredLock, { value := 9, tx := none }) ∧
    Err.isWrapped Err.errAcquiredLock = false := by
  constructor <;> rfl

/-- C5 (amended): when `Lock.Lock` is called on a Locked handle it does not
open a new session and does not re-run the try-acquire — the result is
independent of the `BeginTxx` and try-acquire oracles and equals the
liveness check `isLock` — and it returns `nil` if the session is still
alive; if the probe fails it clears local state (`tx = none`) and returns
an error matching `ErrAcquiredLock` (the bare sentinel when the teardown
succeeds, the sentinel wrapped with the teardown error's message when it
fails), without retrying. -/
theorem lock_reentrant_liveness_only (l : Lock) (sess : Session)
    (b : Except Err Session) (a : Except Err Bool) (rb p prb : Option Err)
    (h : l.tx = some sess) :
    (∀ b' a' rb', l.lock b a rb p prb = l.lock b' a' rb' p prb) ∧
    l.lock b a rb p prb = l.isLock p prb ∧
    (p = none → l.lock b a rb p prb = (none, l)) ∧
    (p ≠ none →
      (l.lock b a rb p prb).2.tx = none ∧
      ∃ e, (l.lock b a rb p prb).1 = some e ∧ e.is Err.errAcquiredLock = true) := by
  unfold Lock.lock Lock.isLock Lock.release
  rcases hp : p with _ | e
  · simp [h]
  · rcases hrb : prb with _ | re <;> simp [h, hp, hrb, Err.is]

/-- C5 witness. -/
theorem lock_reentrant_liveness_only_witness :
    Lock.lock { value := 9, tx := some 4 } (Except.ok 99) (Except.ok false)
        (some (Err.base "unused")) none none
      = (none, { value := 9, tx := some 4 }) ∧
    (Lock.lock { value := 9, tx := some 4 } (Except.ok 99) (Except.ok false)
        (some (Err.base "unused")) (some (Err.base "probe failed")) none).2.tx = none :=
  ⟨(lock_reentrant_liveness_only { value := 9, tx := some 4 } 4 (Except.ok 99)
      (Except.ok false) (some (Err.base "unused")) none none rfl).2.2.1 rfl,
   ((lock_reentrant_liveness_only { value := 9, tx := some 4 } 4 (Except.ok 99)
      (Except.ok false) (some (Err.base "unused")) (some (Err.base "probe failed")) none rfl).2.2.2
      (by simp)).1⟩

/-- C9: key derivation is pure and deterministic — equal resource-name byte
strings hash to equal `int64` keys — the key is computed exactly once by
`DistributedLock.New`, which stores `hash(name)` in the fresh Unlocked
handle, and no operation of the handle (`release`, `isLock`, `lock`, nor
their store-composed forms) ever changes the `value` field. -/
theorem key_derivation_pure_immutable :
    (∀ b₁ b₂ : List Nat, b₁ = b₂ → dlocksql.hash b₁ = dlocksql.hash b₂) ∧
    (∀ name : List Nat,
      DistributedLockNew name = .ok { value := toInt64 (fnv1a64 name), tx := none }) ∧
    (∀ (l : Lock) (rb : Option Err), ((l.release rb).2).value = l.value) ∧
    (∀ (l : Lock) (p prb : Option Err), ((l.isLock p prb).2).value = l.value) ∧
    (∀ (l : Lock) b a (rb p prb : Option Err), ((l.lock b a rb p prb).2).value = l.value) ∧
    (∀ (l : Lock) (s : Store), ((l.lockS s).2.1).value = l.value) ∧
    (∀ (l : Lock) (s : Store), ((l.releaseS s).2.1).value = l.value) := by
  refine ⟨fun b₁ b₂ hb => by rw [hb], fun name => rfl, ?_, ?_, ?_, ?_, ?_⟩
  · intro l rb
    unfold Lock.release
    rcases h : l.tx with _ | sess <;> simp [h]
  · intro l p prb
    unfold Lock.isLock Lock.release
    rcases h : l.tx with _ | sess <;> rcases hp : p with _ | e <;>
      rcases hprb : prb with _ | re <;> simp [h, hp, hprb]
  · intro l b a rb p prb
    unfold Lock.lock Lock.isLock Lock.release
    rcases h : l.tx with _ | sess
    · rcases hb : b with e | tx
      · simp [h, hb]
      · rcases ha : a with e | succeed
        · rcases hrb : rb with _ | re <;> simp [h, hb, ha, hrb, Wrap]
        · rcases hrb : rb with _ | re <;> rcases succeed <;> simp [h, hb, ha, hrb, Wrap]
    · rcases hp : p with _ | e <;> rcases hprb : prb with _ | re <;> simp [h, hp, hprb]
  · intro l s
    unfold Lock.lockS
    rcases h : l.tx with _ | sess
    · rcases hs : (s.beginTxx.2.tryAcquire s.beginTxx.1 l.value).1 <;> simp [h, hs]
    · rcases hs : s.probe sess <;> simp [h, hs]
  · intro l s
    unfold Lock.releaseS
    rcases h : l.tx with _ | sess <;> simp [h]

/-- C9 witness. -/
theorem key_derivation_pure_immutable_witness :
    dlocksql.hash [109, 121, 108, 111, 99, 107] = dlocksql.hash [109, 121, 108, 111, 99, 107] :=
  key_derivation_pure_immutable.1 [109, 121, 108, 111, 99, 107] [109, 121, 108, 111, 99, 107] rfl

/-- C10: `WaitForLock` makes its acquisition attempts only on ticker ticks,
and `time.NewTicker`'s first tick comes one full interval after the call:
when the context terminates before the first tick (`ticksBeforeDone = 0`)
the function returns the wrapped timeout error having called `lock.Lock`
zero times — for every possible lock outcome, i.e. even when the first
attempt would have succeeded — and in general the number of `Lock` calls
never exceeds the number of ticks delivered. -/
theorem waitForLock_no_attempt_before_first_tick (lockRes : Nat → Option Err) (e : Err) :
    waitForLock lockRes e 0 = (some (Err.wrap "timeout to acquired lock" e), 0) ∧
    ∀ n, (waitForLock lockRes e n).2 ≤ n := by
  constructor
  · rfl
  · intro n
    induction n generalizing lockRes with
    | zero => simp [waitForLock]
    | succ m ih =>
      rcases h : lockRes 0 with _ | err
      · simp [waitForLock, h]
      · have := ih (fun i => lockRes (i + 1))
        simp [waitForLock, h]
        omega

/-- Helper: every `waitForLock` run returns either `nil` or the wrapped
context-termination error — never an error from an individual `Lock` call. -/
lemma waitForLock_dichotomy (e : Err) :
    ∀ (n : Nat) (f : Nat → Option Err),
      (waitForLock f e n).1 = none ∨
      (waitForLock f e n).1 = some (Err.wrap "timeout to acquired lock" e) := by
  intro n
  induction n with
  | zero => intro f; right; rfl
  | succ m ih =>
    intro f
    rcases h : f 0 with _ | err
    · left; simp [waitForLock, h]
    · rcases ih (fun i => f (i + 1)) with h1 | h1
      · left; simp [waitForLock, h, h1]
      · right; simp [waitForLock, h, h1]

/-- Helper: if the `i`-th polled `Lock` call is the first to succeed and a
tick for it arrives before the context terminates, `waitForLock` returns
`nil` right then, after exactly `i + 1` calls. -/
lemma waitForLock_first_success (e : Err) :
    ∀ (n i : Nat) (f : Nat → Option Err), i < n → f i = none →
      (∀ j, j < i → f j ≠ none) → waitForLock f e n = (none, i + 1) := by
  intro n
  induction n with
  | zero => intro i f hi _ _; omega
  | succ m ih =>
    intro i f hi hfi hprev
    rcases i with _ | i'
    · simp [waitForLock, hfi]
    · rcases hf0 : f 0 with _ | err
      · exact absurd hf0 (hprev 0 (Nat.succ_pos _))
      · have hrec := ih i' (fun j => f (j + 1)) (by omega) hfi
          (fun j hj => hprev (j + 1) (by omega))
        simp [waitForLock, hf0, hrec]

/-- Helper: if every `Lock` call polled before the context terminates
fails, `waitForLock` returns the wrapped context error after `n` calls. -/
lemma waitForLock_all_fail (e : Err) :
    ∀ (n : Nat) (f : Nat → Option Err), (∀ j, j < n → f j ≠ none) →
      waitForLock f e n = (some (Err.wrap "timeout to acquired lock" e), n) := by
  intro n
  induction n with
  | zero => intro f _; rfl
  | succ m ih =>
    intro f hf
    rcases hf0 : f 0 with _ | err
    · exact absurd hf0 (hf 0 (by omega))
    · have hrec := ih (fun j => f (j + 1)) (fun j hj => hf (j + 1) (by omega))
      simp [waitForLock, hf0, hrec]

/-- C6: outcomes of `WaitForLock`. Every run returns either `nil` or the
context's own termination error wrapped with the "timeout to acquired
lock" message — errors of individual `Lock` attempts are never returned,
the loop retries them. If the first successful `Lock` attempt is polled
before the context terminates, the function returns `nil` at that very
attempt (no extra wait); if every attempt polled before termination fails,
it returns the wrapped context error. -/
theorem waitForLock_outcomes (f : Nat → Option Err) (e : Err) (n : Nat) :
    ((waitForLock f e n).1 = none ∨
      (waitForLock f e n).1 = some (Err.wrap "timeout to acquired lock" e)) ∧
    (∀ i, i < n → f i = none → (∀ j, j < i → f j ≠ none) →
      waitForLock f e n = (none, i + 1)) ∧
    ((∀ j, j < n → f j ≠ none) →
      waitForLock f e n = (some (Err.wrap "timeout to acquired lock" e), n)) :=
  ⟨waitForLock_dichotomy e n f,
   fun i hi hfi hprev => waitForLock_first_success e n i f hi hfi hprev,
   fun hall => waitForLock_all_fail e n f hall⟩

/-- C6 witness: with the lock held for the first two polls and free at the
third, `WaitForLock` returns `nil` after exactly 3 `Lock` calls; with the
lock held at every poll before a deadline of 2 ticks, it returns the
wrapped deadline error. -/
theorem waitForLock_outcomes_witness :
    waitForLock (fun i => if i < 2 then some Err.errAcquiredLock else none)
        (Err.base "context deadline exceeded") 5 = (none, 3) ∧
    waitForLock (fun _ => some Err.errAcquiredLock) (Err.base "context deadline exceeded") 2
      = (some (Err.wrap "timeout to acquired lock" (Err.base "context deadline exceeded")), 2) :=
  ⟨(waitForLock_outcomes (fun i => if i < 2 then some Err.errAcquiredLock else none)
      (Err.base "context deadline exceeded") 5).2.1 2 (by decide) (by decide)
      (by decide),
   (waitForLock_outcomes (fun _ => some Err.errAcquiredLock)
      (Err.base "context deadline exceeded") 2).2.2 (by decide)⟩

/-- C7: the `ContextLock` lease monitor. If the initial synchronous
`lock.Lock` fails, `ContextLock` returns that error immediately with no
derived context, no cancel function and no background task. After a
successful `ContextLock` the background task: on the first `IsLock` probe
that fails, invokes the derived cancel (`MExit.probeFail`) and exits after
that single probe, consuming nothing further of the trace; and the moment
the derived context is observed done — whoever canceled it — it exits at
once (`MExit.ctxDone`) with zero further probes, whatever the rest of the
trace holds. On initial success the returned task is exactly the monitor
loop run from the post-acquisition handle. -/
theorem contextLock_monitor_behavior (l : Lock) (b : Except Err Session)
    (a : Except Err Bool) (rb p prb : Option Err) (events : List MEvent) :
    (∀ e, (l.lock b a rb p prb).1 = some e →
      ContextLock l b a rb p prb events = (none, some e)) ∧
    (∀ (l' : Lock) (pp rr : Option Err) (rest : List MEvent),
      (l'.IsLock pp rr).1 ≠ none →
      monitorRun l' (MEvent.tick pp rr :: rest)
        = ((l'.IsLock pp rr).2, MExit.probeFail, 1)) ∧
    (∀ (l' : Lock) (rest : List MEvent),
      monitorRun l' (MEvent.done :: rest) = (l', MExit.ctxDone, 0)) ∧
    ((l.lock b a rb p prb).1 = none →
      ContextLock l b a rb p prb events
        = (some (monitorRun (l.lock b a rb p prb).2 events), none)) := by
  refine ⟨?_, ?_, ?_, ?_⟩
  · intro e he
    unfold ContextLock
    rcases hl : l.lock b a rb p prb with ⟨res, l'⟩
    rw [hl] at he
    simp at he
    simp [he]
  · intro l' pp rr rest hne
    unfold monitorRun
    rcases hl : l'.IsLock pp rr with ⟨res, l''⟩
    rw [hl] at hne
    rcases res with _ | e
    · simp at hne
    · simp [hl]
  · intro l' rest
    rfl
  · intro he
    unfold ContextLock
    rcases hl : l.lock b a rb p prb with ⟨res, l'⟩
    rw [hl] at he
    simp at he
    simp [he, hl]

/-- C7 witness. -/
theorem contextLock_monitor_behavior_witness :
    ContextLock { value := 3, tx := none } (Except.ok 0) (Except.ok false) none none none
        [MEvent.tick none none] = (none, some Err.errAcquiredLock) ∧
    monitorRun { value := 3, tx := some 0 }
        [MEvent.tick (some (Err.base "session gone")) none, MEvent.done]
      = ({ value := 3, tx := none }, MExit.probeFail, 1) ∧
    monitorRun { value := 3, tx := some 0 }
        [MEvent.done, MEvent.tick (some (Err.base "session gone")) none]
      = ({ value := 3, tx := some 0 }, MExit.ctxDone, 0) :=
  ⟨(contextLock_monitor_behavior { value := 3, tx := none } (Except.ok 0) (Except.ok false)
      none none none [MEvent.tick none none]).1 Err.errAcquiredLock rfl,
   (contextLock_monitor_behavior { value := 3, tx := none } (Except.ok 0) (Except.ok false)
      none none none []).2.1 { value := 3, tx := some 0 } (some (Err.base "session gone")) none
      [MEvent.done] (by decide),
   (contextLock_monitor_behavior { value := 3, tx := none } (Except.ok 0) (Except.ok false)
      none none none []).2.2.1 { value := 3, tx := some 0 }
      [MEvent.tick (some (Err.base "session gone")) none]⟩

/-- C8: cancellation never releases. When the monitor observes the derived
context done it exits returning the handle exactly as it was — the `tx`
field untouched, no release performed — whatever canceled the context and
whatever the rest of the trace holds; and over any trace whose ticks all
carry successful probes, the monitor leaves the handle exactly as it
started: the lock stays held until an explicit `Release`, since the
monitor only probes via `IsLock` and cancels, and `IsLock` only mutates
the handle on a failed probe. -/
theorem cancellation_never_releases (l : Lock) (events : List MEvent)
    (hsucc : ∀ ev ∈ events, tickProbeOk ev) :
    (monitorRun l events).1 = l ∧
    (∀ (l' : Lock) (rest : List MEvent),
      monitorRun l' (MEvent.done :: rest) = (l', MExit.ctxDone, 0)) := by
  refine ⟨?_, fun l' rest => rfl⟩
  induction events generalizing l with
  | nil => rfl
  | cons ev rest ih =>
    rcases ev with _ | ⟨pp, rr⟩
    · rfl
    · have hpp : pp = none := hsucc (MEvent.tick pp rr) (List.mem_cons_self _ _)
      subst hpp
      rcases htx : l.tx with _ | sess
      · simp [monitorRun, Lock.IsLock, Lock.isLock, htx]
      · have hrec := ih l (fun ev hm => hsucc ev (List.mem_cons_of_mem _ hm))
        simp [monitorRun, Lock.IsLock, Lock.isLock, htx, hrec]

/-- C8 witness. -/
theorem cancellation_never_releases_witness :
    (monitorRun { value := 11, tx := some 6 }
        [MEvent.tick none none, MEvent.tick none none, MEvent.done]).1
      = { value := 11, tx := some 6 } :=
  (cancellation_never_releases { value := 11, tx := some 6 }
      [MEvent.tick none none, MEvent.tick none none, MEvent.done]
      (by decide)).1

/-- Helper: with a well-formed store, every holder entry for key `k` names
the session that `heldKey` reports — a key has one holding session. -/
lemma holders_key_unique (s : Store) (hwf : s.WF) {k : Int} {sa : Nat}
    (h : s.heldKey k = some sa) : ∀ p ∈ s.holders, p.1 = k → p.2 = sa := by
  intro p hp hpk
  unfold Store.heldKey at h
  rcases hfind : s.holders.find? (fun q => q.1 == k) with _ | p0
  · rw [hfind] at h; simp at h
  · rw [hfind] at h
    simp only [Option.map_some', Option.some.injEq] at h
    have hp0mem := List.mem_of_find?_eq_some hfind
    have hp0k : p0.1 = k := by
      have := List.find?_some hfind
      simpa using this
    have := hwf.2.2 p hp p0 hp0mem (by rw [hpk, hp0k])
    rw [this]
    simpa using h

/-- Helper: the session holding a key in a well-formed store is open, hence
strictly below the next fresh session id. -/
lemma holder_session_lt (s : Store) (hwf : s.WF) {k : Int} {sa : Nat}
    (h : s.heldKey k = some sa) : sa < s.nextSession := by
  unfold Store.heldKey at h
  rcases hfind : s.holders.find? (fun q => q.1 == k) with _ | p0
  · rw [hfind] at h; simp at h
  · rw [hfind] at h
    simp only [Option.map_some', Option.some.injEq] at h
    have hp0mem := List.mem_of_find?_eq_some hfind
    have hopen : p0.2 ∈ s.openSessions := hwf.2.1 p0 hp0mem
    have := hwf.1 p0.2 hopen
    omega

/-- Helper: rolling back the session that holds key `k` frees `k`. -/
lemma heldKey_rollback_self (s : Store) (hwf : s.WF) {k : Int} {sa : Nat}
    (h : s.heldKey k = some sa) : (s.rollback sa).heldKey k = none := by
  unfold Store.heldKey Store.rollback
  simp only [Option.map_eq_none']
  rw [List.find?_eq_none]
  intro p hp hbeq
  rw [List.mem_filter] at hp
  obtain ⟨hpmem, hpne⟩ := hp
  have hpk : p.1 = k := by simpa using hbeq
  have := holders_key_unique s hwf h p hpmem hpk
  simp at hpne
  exact hpne this

/-- Helper: rolling back a session that holds no lock on key `k` (in
particular a session fresh at or above every holder's id) leaves `k`'s
holder unchanged; stated for the fresh session opened by `beginTxx`. -/
lemma heldKey_rollback_fresh (s : Store) (hwf : s.WF) (k : Int) :
    ((s.beginTxx.2).rollback s.beginTxx.1).heldKey k = s.heldKey k := by
  unfold Store.heldKey Store.rollback Store.beginTxx
  simp only
  have hfilter : (s.holders.filter (fun p => p.2 ≠ s.nextSession)) = s.holders := by
    rw [List.filter_eq_self]
    intro p hp
    have hopen : p.2 ∈ s.openSessions := hwf.2.1 p hp
    have := hwf.1 p.2 hopen
    simp
    omega
  rw [hfilter]

/-- C1: mutual exclusion across handles. In a well-formed error-free store,
while handle `A`'s `Lock.Lock` has succeeded — `A` holds session `sa`,
which holds the advisory lock for the derived key — any other handle `B`
for the same key (same resource name, hence equal derived key) with no
session of its own has its `Lock.Lock` fail with `ErrAcquiredLock`, with
`B` left exactly as it was and the key still held by `sa`; the guarantee
comes from the store's try-acquire resolving contention to the single
holder (any session other than `sa` try-acquiring the key fails), not from
the core's in-process state; and it lasts exactly until `A` releases:
after `A.Release` rolls `sa` back, `B`'s `Lock.Lock` succeeds. -/
theorem mutual_exclusion_across_handles (s : Store) (A B : Lock) (sa : Nat)
    (hwf : s.WF) (hA : A.tx = some sa) (hheld : s.heldKey A.value = some sa)
    (hBval : B.value = A.value) (hBtx : B.tx = none) :
    (B.lockS s).1 = some Err.errAcquiredLock ∧
    (B.lockS s).2.1 = B ∧
    ((B.lockS s).2.2).heldKey A.value = some sa ∧
    (∀ sess, sess ≠ sa → (s.tryAcquire sess A.value).1 = false) ∧
    (B.lockS ((A.releaseS s).2.2)).1 = none := by
  have hlt : sa < s.nextSession := holder_session_lt s hwf hheld
  have hheldB : s.heldKey B.value = some sa := by rw [hBval]; exact hheld
  have hheld1 : (s.beginTxx.2).heldKey B.value = some sa := hheldB
  have hacq : (s.beginTxx.2).tryAcquire s.beginTxx.1 B.value
      = (false, s.beginTxx.2) := by
    unfold Store.tryAcquire
    rw [hheld1]
    have : (sa == s.beginTxx.1) = false := by
      have : sa ≠ s.beginTxx.1 := by
        unfold Store.beginTxx; simp; omega
      simpa using this
    simp [this]
  refine ⟨?_, ?_, ?_, ?_, ?_⟩
  · unfold Lock.lockS
    rw [hBtx]
    simp [hacq]
  · unfold Lock.lockS
    rw [hBtx]
    simp [hacq]
  · unfold Lock.lockS
    rw [hBtx]
    simp only [hacq]
    simp only [Bool.false_eq_true, if_false]
    calc ((s.beginTxx.2).rollback s.beginTxx.1).heldKey A.value
        = s.heldKey A.value := heldKey_rollback_fresh s hwf A.value
      _ = some sa := hheld
  · intro sess hne
    unfold Store.tryAcquire
    rw [hheld]
    have : (sa == sess) = false := by simpa using fun h => hne h.symm
    simp [this]
  · have hrel : (A.releaseS s).2.2 = s.rollback sa := by
      unfold Lock.releaseS
      rw [hA]
    rw [hrel]
    have hfree : (s.rollback sa).heldKey B.value = none := by
      rw [hBval]
      exact heldKey_rollback_self s hwf hheld
    unfold Lock.lockS
    rw [hBtx]
    have hacq2 : ((s.rollback sa).beginTxx.2).tryAcquire (s.rollback sa).beginTxx.1 B.value
        = (true, { (s.rollback sa).beginTxx.2 with
            holders := (B.value, (s.rollback sa).beginTxx.1) :: ((s.rollback sa).beginTxx.2).holders }) := by
      unfold Store.tryAcquire
      have : ((s.rollback sa).beginTxx.2).heldKey B.value = none := hfree
      rw [this]
    simp [hacq2]

/-- C1 witness: the store reached after handle `A` (key 42) opened session
0 and acquired the advisory lock on 42. -/
theorem mutual_exclusion_across_handles_witness :
    (Lock.lockS { value := 42, tx := none }
        { nextSession := 1, openSessions := [0], holders := [(42, 0)] }).1
      = some Err.errAcquiredLock ∧
    (Lock.lockS { value := 42, tx := none }
        ((Lock.releaseS { value := 42, tx := some 0 }
          { nextSession := 1, openSessions := [0], holders := [(42, 0)] }).2.2)).1
      = none := by
  have h := mutual_exclusion_across_handles
    { nextSession := 1, openSessions := [0], holders := [(42, 0)] }
    { value := 42, tx := some 0 } { value := 42, tx := none } 0
    (by decide) rfl (by decide) rfl rfl
  exact ⟨h.1, h.2.2.2.2⟩
